import Mathlib

/-!
# Verification of the Daikin FCU frame codec and climate controller

Shallow embedding of `custom_components/yip_daikin_fcu/climate.py`.
Python strings are modelled as `List Char`; Python slicing `s[a:b]`
(with clamping) is `pySlice`; operations that may raise in Python
return `Option`, with `none` standing for a raised exception or an
explicit `None` result.  Python floats arising from `x / 2` and
`x / 10.0` are modelled as exact rationals; `int(s, 16)`, `int(s)`
and `bytes.fromhex` are modelled on plain digit strings (signs for
base-10 `int`), without Python's whitespace/underscore extensions,
which never occur in protocol frames.
-/

/-- Value of one hexadecimal digit character, `none` for a non-hex character.
Accepts both lower- and upper-case letters, as Python's parsers do. -/
def hexDigitVal (c : Char) : Option Nat :=
  if 48 ≤ c.toNat ∧ c.toNat ≤ 57 then some (c.toNat - 48)
  else if 97 ≤ c.toNat ∧ c.toNat ≤ 102 then some (c.toNat - 87)
  else if 65 ≤ c.toNat ∧ c.toNat ≤ 70 then some (c.toNat - 55)
  else none

/-- Accumulating loop for hexadecimal string parsing. -/
def parseHexLoop : List Char → Nat → Option Nat
  | [], acc => some acc
  | c :: cs, acc =>
    match hexDigitVal c with
    | some d => parseHexLoop cs (16 * acc + d)
    | none => none

/-- Python `int(s, 16)` on a plain hexadecimal digit string: fails on
the empty string and on any non-hex character. -/
def parseHex (s : List Char) : Option Nat :=
  match s with
  | [] => none
  | _ :: _ => parseHexLoop s 0

/-- Python `bytes.fromhex`: pairs of hex characters to byte values;
fails on odd length or a non-hex character. -/
def fromHex : List Char → Option (List Nat)
  | [] => some []
  | [_] => none
  | a :: b :: rest =>
    match hexDigitVal a, hexDigitVal b, fromHex rest with
    | some hi, some lo, some bs => some ((16 * hi + lo) :: bs)
    | _, _, _ => none

/-- The character for one hex (or decimal) digit, upper-case, as produced
by Python's `X` format and by `str` on the digits of a number. -/
def hexChar (d : Nat) : Char :=
  match d with
  | 0 => '0' | 1 => '1' | 2 => '2' | 3 => '3' | 4 => '4'
  | 5 => '5' | 6 => '6' | 7 => '7' | 8 => '8' | 9 => '9'
  | 10 => 'A' | 11 => 'B' | 12 => 'C' | 13 => 'D' | 14 => 'E'
  | _ => 'F'

/-- Fuel-indexed digit expansion for `natToHex`; `n + 1` fuel always
suffices since the digit count of `n` is at most `n + 1`. -/
def natToHexAux : Nat → Nat → List Char
  | 0, _ => []
  | fuel + 1, n =>
    if n < 16 then [hexChar n]
    else natToHexAux fuel (n / 16) ++ [hexChar (n % 16)]

/-- Upper-case hexadecimal representation of a natural number, no
leading zeros (Python `format(n, 'X')`). -/
def natToHex (n : Nat) : List Char :=
  natToHexAux (n + 1) n

/-- Python `f-string` formatting with format spec `02X` on a natural
number: upper-case hex, zero-padded on the left to at least two digits. -/
def pyHex2 (n : Nat) : List Char :=
  List.replicate (2 - (natToHex n).length) '0' ++ natToHex n

/-- Fuel-indexed digit expansion for `natToDecimal`. -/
def natToDecimalAux : Nat → Nat → List Char
  | 0, _ => []
  | fuel + 1, n =>
    if n < 10 then [hexChar n]
    else natToDecimalAux fuel (n / 10) ++ [hexChar (n % 10)]

/-- Decimal representation of a natural number (Python `str(n)`). -/
def natToDecimal (n : Nat) : List Char :=
  natToDecimalAux (n + 1) n

/-- Python slicing `l[a:b]` for `0 ≤ a ≤ b`, with out-of-range clamping. -/
def pySlice (l : List Char) (a b : Nat) : List Char :=
  (l.drop a).take (b - a)

/-- Membership in the strip set of `str.strip("{}")`. -/
def isBraceChar (c : Char) : Bool :=
  c == '{' || c == '}'

/-- Python `payload.strip("{}")`: removes every leading and trailing
`{` or `}` character (not just one wrapping pair). -/
def stripBraces (l : List Char) : List Char :=
  ((l.dropWhile isBraceChar).reverse.dropWhile isBraceChar).reverse

/-- `calculate_lrc` from climate.py: two's-complement style LRC over a
byte sequence. -/
def calculate_lrc (data : List Nat) : Nat :=
  (0xFF - data.sum % 256 + 1) % 256

/-- The byte-count field of a frame: hex characters `[22,26)`, parsed
little-endian (`int(bch[2:4] + bch[0:2], 16)`), as computed in both
`validate_lrc_from_frame` and `_decode_daikin_frame`. -/
def byteCountOf (frame : List Char) : Option Nat :=
  parseHex (pySlice (pySlice frame 22 26) 2 4 ++ pySlice (pySlice frame 22 26) 0 2)

/-- `validate_lrc_from_frame` from climate.py.  Any exception inside the
Python `try` block (failed `int`, failed `bytes.fromhex`) yields `False`. -/
def validate_lrc_from_frame (frame : List Char) : Bool :=
  match byteCountOf frame with
  | none => false
  | some byte_count =>
    match fromHex (pySlice frame 0 (26 + byte_count * 2)) with
    | none => false
    | some data_bytes =>
      pyHex2 (calculate_lrc data_bytes) ==
        (pySlice frame (26 + byte_count * 2) (26 + byte_count * 2 + 2)).map
          Char.toUpper

/-- `build_payload` from climate.py.  `none` models the (uncaught)
`ValueError` when `bytes.fromhex` is applied to a malformed hex string.
Note the result is wrapped in parentheses `(`/`)`, as in the source. -/
def normalizeMac (mac : List Char) : List Char :=
  (mac.map Char.toUpper).filter (fun c => !(c == ':' || c == '-'))

/-- The `header + byte_count_hex + data` text of `build_payload`, i.e.
the checksum-covered part of the outbound frame. -/
def buildBase (mac func start_reg reg_count data : List Char) : List Char :=
  normalizeMac mac ++ "0000".toList ++ func ++ start_reg ++ reg_count
    ++ pyHex2 (data.length / 2 % 256) ++ pyHex2 (data.length / 2 / 256) ++ data

def build_payload (mac func start_reg reg_count data : List Char) :
    Option (List Char) :=
  match fromHex (buildBase mac func start_reg reg_count data) with
  | none => none
  | some payload_base =>
    some ('(' :: (buildBase mac func start_reg reg_count data
          ++ pyHex2 (calculate_lrc payload_base)) ++ [')'])

/-- The decoded register snapshot returned by `_decode_daikin_frame`.
Temperatures are exact rationals standing for the Python floats. -/
structure Snapshot where
  power : Nat
  fan_speed : Nat
  set_temp : ℚ
  sweep_status : Nat
  mode : Nat
  room_temp : ℚ
deriving DecidableEq, Repr

/-- The local `to_int(offset)` helper of `_decode_daikin_frame`:
`int(data_hex[offset:offset+2], 16)`. -/
def toIntAt (data_hex : List Char) (offset : Nat) : Option Nat :=
  parseHex (pySlice data_hex offset (offset + 2))

/-- Field extraction of `_decode_daikin_frame` (the `try` block after
LRC validation); `none` models any exception during extraction. -/
def extractSnapshot (frame : List Char) : Option Snapshot :=
  match byteCountOf frame with
  | none => none
  | some byte_count =>
    match toIntAt (pySlice frame 26 (26 + byte_count * 2)) 4,
          toIntAt (pySlice frame 26 (26 + byte_count * 2)) 8,
          toIntAt (pySlice frame 26 (26 + byte_count * 2)) 10,
          toIntAt (pySlice frame 26 (26 + byte_count * 2)) 14,
          toIntAt (pySlice frame 26 (26 + byte_count * 2)) 16,
          toIntAt (pySlice frame 26 (26 + byte_count * 2)) 18,
          toIntAt (pySlice frame 26 (26 + byte_count * 2)) 20 with
    | some power, some fan, some sraw, some sweep, some mode,
      some rlo, some rhi =>
      some ⟨power, fan, (sraw : ℚ) / 2, sweep, mode,
            (256 * (rhi : ℚ) + (rlo : ℚ)) / 10⟩
    | _, _, _, _, _, _, _ => none

/-- `_decode_daikin_frame` from climate.py. -/
def decode_daikin_frame (payload : List Char) : Option Snapshot :=
  if payload.head? = some '{' ∧ payload.getLast? = some '}' then
    if (stripBraces payload).length < 30 then none
    else if validate_lrc_from_frame (stripBraces payload) then
      extractSnapshot (stripBraces payload)
    else none
  else none

/-- HVAC modes supported by the entity (`_attr_hvac_modes`). -/
inductive HvacMode
  | off
  | cool
  | dry
  | fan_only
deriving DecidableEq, Repr

/-- An observable outbound effect of a controller method: an MQTT
publish of a write command `(register, data)` via `_send_write_command`,
or an `asyncio.sleep` (milliseconds). -/
inductive Event
  | publish (reg : List Char) (data : List Char)
  | sleep (ms : Nat)
deriving DecidableEq, Repr

/-- `_send_write_command(reg, hex_data)` at command granularity. -/
def send_write_command (reg hex_data : List Char) : Event :=
  .publish reg hex_data

/-- `_send_power_command(turn_on)`: register `02`, value `01` or `00`. -/
def send_power_command (turn_on : Bool) : Event :=
  .publish "02".toList (if turn_on then "01".toList else "00".toList)

/-- The locally held entity state (`_attr_*` fields used by the claims). -/
structure ClimateState where
  hvac_mode : HvacMode
  target_temperature : ℚ
  current_temperature : ℚ
  fan_mode : List Char
  swing_mode : List Char
deriving DecidableEq, Repr

/-- The mode dictionary of `_update_state_from_decoded` (a Python dict
lookup, modelled as a key-by-key comparison). -/
def MODE_MAP (n : Nat) : Option HvacMode :=
  if n = 0 then some .fan_only
  else if n = 1 then some .cool
  else if n = 2 then some .dry
  else none

/-- `FAN_SPEED_MAP` from climate.py. -/
def FAN_SPEED_MAP (n : Nat) : Option (List Char) :=
  if n = 3 then some "3".toList
  else if n = 4 then some "4".toList
  else if n = 5 then some "5".toList
  else if n = 6 then some "6".toList
  else if n = 7 then some "7".toList
  else if n = 10 then some "AUTO".toList
  else if n = 255 then some "AUTO".toList
  else none

/-- `SWING_MAP` from climate.py. -/
def SWING_MAP (n : Nat) : Option (List Char) :=
  if n = 0 then some "SWEEP ON".toList
  else if n = 1 then some "1".toList
  else if n = 2 then some "2".toList
  else if n = 3 then some "3".toList
  else if n = 4 then some "4".toList
  else if n = 5 then some "5".toList
  else if n = 8 then some "AUTO".toList
  else if n = 255 then some "AUTO".toList
  else none

/-- `_update_state_from_decoded` from climate.py.  The `is not None`
guards on the temperatures are always taken on a decoded snapshot,
whose fields are all present; the state argument is therefore fully
overwritten. -/
def update_state_from_decoded (st : ClimateState) (d : Snapshot) :
    ClimateState :=
  ⟨(if d.power = 1 then (MODE_MAP d.mode).getD .off else .off),
   d.set_temp, d.room_temp,
   (FAN_SPEED_MAP d.fan_speed).getD (natToDecimal d.fan_speed),
   (SWING_MAP d.sweep_status).getD (natToDecimal d.sweep_status)⟩

/-- The mode-to-hex dictionary of `async_set_hvac_mode`; `HVACMode.OFF`
never reaches this lookup in the source. -/
def mode_hex (m : HvacMode) : Option (List Char) :=
  match m with
  | .fan_only => some "00".toList
  | .cool => some "01".toList
  | .dry => some "02".toList
  | .off => none

/-- `async_set_hvac_mode` from climate.py, as the list of emitted
events together with the resulting local state. -/
def async_set_hvac_mode (st : ClimateState) (m : HvacMode) :
    List Event × ClimateState :=
  if m = .off then ([send_power_command false], st)
  else
    match mode_hex m with
    | none => ([], st)
    | some mh =>
      ([send_write_command "08".toList mh, .sleep 300,
        send_power_command true],
       ⟨m, st.target_temperature, st.current_temperature,
        st.fan_mode, st.swing_mode⟩)

/-- Python `int()` truncation toward zero on a rational: the quotient of
the reduced numerator by the (positive) denominator, rounded toward zero. -/
def pyTrunc (q : ℚ) : Int :=
  Int.tdiv q.num (q.den : Int)

/-- Python `f-string` formatting with spec `02X` on an `int` (negative
values carry a leading minus sign, digits not padded further since the
sign already fills the width). -/
def format02X (n : Int) : List Char :=
  if 0 ≤ n then pyHex2 n.toNat else '-' :: natToHex n.natAbs

/-- `async_set_temperature` from climate.py: `kwargs.get("temperature")`
is the argument; no event when it is absent. -/
def async_set_temperature (temperature : Option ℚ) : List Event :=
  match temperature with
  | none => []
  | some t => [send_write_command "05".toList (format02X (pyTrunc (t * 2)))]

/-- Accumulating loop for decimal string parsing. -/
def parseDecLoop : List Char → Nat → Option Nat
  | [], acc => some acc
  | c :: cs, acc =>
    if 48 ≤ c.toNat ∧ c.toNat ≤ 57 then parseDecLoop cs (10 * acc + (c.toNat - 48))
    else none

/-- Decimal digit string to value; fails on empty or non-digit. -/
def parseDec (s : List Char) : Option Nat :=
  match s with
  | [] => none
  | _ :: _ => parseDecLoop s 0

/-- Python `int(s)` on a plain decimal string with an optional sign. -/
def pyInt10 (s : List Char) : Option Int :=
  match s with
  | '+' :: rest => (parseDec rest).map (fun v => (v : Int))
  | '-' :: rest => (parseDec rest).map (fun v => -(v : Int))
  | _ => (parseDec s).map (fun v => (v : Int))

/-- `async_set_fan_mode` from climate.py; `none` models the uncaught
`ValueError` of `int(fan_mode)`, in which case no command is published. -/
def async_set_fan_mode (fan_mode : List Char) : Option (List Event) :=
  if fan_mode.map Char.toUpper = "AUTO".toList then
    some [send_write_command "04".toList "0A".toList]
  else
    match pyInt10 fan_mode with
    | none => none
    | some n => some [send_write_command "04".toList (format02X n)]

/-- Hex text of a byte sequence, two upper-case characters per byte. -/
def bytesToHex (bs : List Nat) : List Char :=
  bs.flatMap pyHex2

/-- Whether every character of a string is a hexadecimal digit. -/
def isHexStr (l : List Char) : Bool :=
  l.all (fun c => (hexDigitVal c).isSome)

/-- Whether an event is an outbound MQTT publish (as opposed to a wait). -/
def isPublish (e : Event) : Bool :=
  match e with
  | .publish _ _ => true
  | .sleep _ => false

/-- The example broadcast frame from the module docstring of climate.py,
wrapped in the brace delimiters as received over MQTT. -/
def examplePayload : List Char :=
  "{600194657C39000000001515000406000507280000012C01C80085EEEE003030304F53}".toList

/-- The snapshot that `_decode_daikin_frame` extracts from `examplePayload`. -/
def exampleSnapshot : Snapshot :=
  ⟨0, 7, 20, 0, 1, 30⟩

/-! ## Claim C5: compound mode-change sequencing -/

/-- C5: every `set_hvac_mode` call with COOL, DRY or FAN_ONLY emits exactly
two outbound commands in order — a mode-register (`08`) write with the
mapped code (fan-only `00`, cool `01`, dry `02`), then after a fixed 300 ms
settle wait a power-register (`02`) write with value `01` — and sets the
locally held hvac mode to the requested mode ahead of telemetry
confirmation; no other command is emitted. -/
theorem C5_set_hvac_mode_sequencing (st : ClimateState) (m : HvacMode)
    (h : m = .cool ∨ m = .dry ∨ m = .fan_only) :
    ∃ mh, mode_hex m = some mh ∧
      async_set_hvac_mode st m =
        ([Event.publish "08".toList mh, Event.sleep 300,
          Event.publish "02".toList "01".toList],
         ⟨m, st.target_temperature, st.current_temperature,
          st.fan_mode, st.swing_mode⟩) ∧
      (m = .cool → mh = "01".toList) ∧
      (m = .dry → mh = "02".toList) ∧
      (m = .fan_only → mh = "00".toList) ∧
      ((async_set_hvac_mode st m).1.filter isPublish).length = 2 := by
  rcases h with h | h | h <;> subst h
  · exact ⟨"01".toList, rfl, rfl, fun _ => rfl,
      fun hx => absurd hx (by decide), fun hx => absurd hx (by decide), rfl⟩
  · exact ⟨"02".toList, rfl, rfl, fun hx => absurd hx (by decide),
      fun _ => rfl, fun hx => absurd hx (by decide), rfl⟩
  · exact ⟨"00".toList, rfl, rfl, fun hx => absurd hx (by decide),
      fun hx => absurd hx (by decide), fun _ => rfl, rfl⟩

/-- Witness for C5: the COOL transition on a concrete initial state. -/
theorem C5_set_hvac_mode_sequencing_witness :
    ∃ mh, mode_hex .cool = some mh ∧
      async_set_hvac_mode
          ⟨.off, 25, 27, "AUTO".toList, "SWEEP ON".toList⟩ .cool =
        ([Event.publish "08".toList mh, Event.sleep 300,
          Event.publish "02".toList "01".toList],
         ⟨.cool, 25, 27, "AUTO".toList, "SWEEP ON".toList⟩) ∧
      (HvacMode.cool = .cool → mh = "01".toList) ∧
      (HvacMode.cool = .dry → mh = "02".toList) ∧
      (HvacMode.cool = .fan_only → mh = "00".toList) ∧
      ((async_set_hvac_mode
          ⟨.off, 25, 27, "AUTO".toList, "SWEEP ON".toList⟩ .cool).1.filter
        isPublish).length = 2 :=
  C5_set_hvac_mode_sequencing
    ⟨.off, 25, 27, "AUTO".toList, "SWEEP ON".toList⟩ .cool (Or.inl rfl)

/-! ## Claim C7: decode totality on malformed input -/

/-- C7: for every input string, decode yields no result — never a
propagated exception — whenever the payload does not start with a brace
or end with a brace, or the stripped text is shorter than 30 characters,
or LRC validation fails, or any parsing step of field extraction fails.
The embedding of decode is a total function, so no exception escapes. -/
theorem C7_decode_malformed_rejection (payload : List Char)
    (h : payload.head? ≠ some '{' ∨ payload.getLast? ≠ some '}' ∨
         (stripBraces payload).length < 30 ∨
         validate_lrc_from_frame (stripBraces payload) = false ∨
         extractSnapshot (stripBraces payload) = none) :
    decode_daikin_frame payload = none := by
  by_cases h1 : payload.head? = some '{' ∧ payload.getLast? = some '}'
  · rw [decode_daikin_frame, if_pos h1]
    rcases h with h | h | h | h | h
    · exact absurd h1.1 h
    · exact absurd h1.2 h
    · rw [if_pos h]
    · split_ifs <;> simp_all
    · split_ifs <;> simp_all
  · rw [decode_daikin_frame, if_neg h1]

/-- Witness for C7: a payload lacking the opening brace is rejected. -/
theorem C7_decode_malformed_rejection_witness :
    decode_daikin_frame "hello".toList = none :=
  C7_decode_malformed_rejection "hello".toList (Or.inl (by decide))

/-! ## Hex digit and formatting lemmas -/

theorem hexDigitVal_hexChar (d : Nat) (h : d < 16) :
    hexDigitVal (hexChar d) = some d := by
  interval_cases d <;> decide

theorem toUpper_hexChar (d : Nat) (h : d < 16) :
    (hexChar d).toUpper = hexChar d := by
  interval_cases d <;> decide

theorem natToHexAux_of_lt (fuel n : Nat) (hf : 0 < fuel) (h : n < 16) :
    natToHexAux fuel n = [hexChar n] := by
  cases fuel with
  | zero => omega
  | succ f => rw [natToHexAux, if_pos h]

theorem natToHex_of_lt (n : Nat) (h : n < 16) : natToHex n = [hexChar n] :=
  natToHexAux_of_lt (n + 1) n (by omega) h

theorem pyHex2_eq_pair (n : Nat) (h : n < 256) :
    pyHex2 n = [hexChar (n / 16), hexChar (n % 16)] := by
  by_cases h16 : n < 16
  · rw [pyHex2, natToHex_of_lt n h16]
    have h1 : n / 16 = 0 := Nat.div_eq_of_lt h16
    have h2 : n % 16 = n := Nat.mod_eq_of_lt h16
    rw [h1, h2]
    rfl
  · have hx : natToHex n = [hexChar (n / 16), hexChar (n % 16)] := by
      rw [natToHex, natToHexAux, if_neg h16,
        natToHexAux_of_lt n (n / 16) (by omega) (by omega)]
      rfl
    rw [pyHex2, hx]
    rfl

theorem pyHex2_length (n : Nat) (h : n < 256) : (pyHex2 n).length = 2 := by
  rw [pyHex2_eq_pair n h]
  rfl

theorem parseHex_cons (c : Char) (cs : List Char) :
    parseHex (c :: cs) = parseHexLoop (c :: cs) 0 := rfl

theorem parseHexLoop_cons2 (a : Nat) (ha : a < 256) (rest : List Char)
    (acc : Nat) :
    parseHexLoop (pyHex2 a ++ rest) acc = parseHexLoop rest (256 * acc + a) := by
  rw [pyHex2_eq_pair a ha]
  simp only [List.cons_append, List.nil_append, parseHexLoop,
    hexDigitVal_hexChar (a / 16) (by omega), hexDigitVal_hexChar (a % 16) (by omega)]
  congr 1
  omega

theorem parseHexLoop_pyHex2 (b acc : Nat) (hb : b < 256) :
    parseHexLoop (pyHex2 b) acc = some (256 * acc + b) := by
  rw [← List.append_nil (pyHex2 b), parseHexLoop_cons2 b hb]
  rfl

theorem parseHex_pair (a b : Nat) (ha : a < 256) (hb : b < 256) :
    parseHex (pyHex2 a ++ pyHex2 b) = some (256 * a + b) := by
  have h1 : pyHex2 a ++ pyHex2 b
      = hexChar (a / 16) :: (hexChar (a % 16) :: pyHex2 b) := by
    rw [pyHex2_eq_pair a ha]
    rfl
  rw [h1, parseHex_cons, ← h1, parseHexLoop_cons2 a ha,
    parseHexLoop_pyHex2 b (256 * 0 + a) hb]
  simp only [Option.some.injEq]
  omega

theorem pyHex2_inj (a b : Nat) (ha : a < 256) (hb : b < 256)
    (h : pyHex2 a = pyHex2 b) : a = b := by
  have h1 := parseHexLoop_pyHex2 a 0 ha
  rw [h, parseHexLoop_pyHex2 b 0 hb] at h1
  simp only [Option.some.injEq] at h1
  omega

theorem map_toUpper_pyHex2 (n : Nat) (h : n < 256) :
    (pyHex2 n).map Char.toUpper = pyHex2 n := by
  rw [pyHex2_eq_pair n h]
  simp [toUpper_hexChar (n / 16) (by omega), toUpper_hexChar (n % 16) (by omega)]

theorem calculate_lrc_lt (l : List Nat) : calculate_lrc l < 256 := by
  rw [calculate_lrc]
  omega

/-! ## Claim C8: temperature command encoding (corrected) -/

unseal Rat.mul Rat.inv Rat.add in
/-- C8 counterexample: at temperature 21.3 the code emits the truncation
`int(21.3 * 2) = 42 = 0x2A`, while the claim's `round(21.3 * 2) = 43`
would be `0x2B`. -/
theorem C8_counterexample :
    async_set_temperature (some (213 / 10 : ℚ)) =
      [Event.publish "05".toList "2A".toList] ∧
    round ((213 / 10 : ℚ) * 2) = (43 : ℤ) ∧
    pyHex2 (Int.toNat 43) = "2B".toList ∧
    "2A".toList ≠ "2B".toList := by
  refine ⟨by decide, ?_, by decide, by decide⟩
  rw [round_eq]
  norm_num

unseal Rat.mul Rat.inv Rat.add in
/-- C8 (amended): `set_temperature(t)` with a temperature present emits
exactly one write command to register `05` whose data is `int(t*2)`
(truncation toward zero) formatted as a 2-digit hex byte; this agrees
with `round(t*2)` whenever `t` is a non-negative half-degree multiple,
and in particular 21.5 °C produces command data `2B`. -/
theorem C8_temperature_encoding (t : ℚ) :
    async_set_temperature (some t) =
      [Event.publish "05".toList (format02X (pyTrunc (t * 2)))] ∧
    async_set_temperature none = [] ∧
    (0 ≤ t → (∃ k : ℕ, t = (k : ℚ) / 2) → pyTrunc (t * 2) = round (t * 2)) ∧
    async_set_temperature (some (43 / 2 : ℚ)) =
      [Event.publish "05".toList "2B".toList] := by
  refine ⟨rfl, rfl, ?_, by decide⟩
  rintro ht ⟨k, rfl⟩
  have h2 : ((k : ℚ) / 2) * 2 = (k : ℚ) := by field_simp
  rw [h2, pyTrunc, Rat.num_natCast, Rat.den_natCast, Nat.cast_one,
    Int.tdiv_one, round_natCast]

unseal Rat.mul Rat.inv Rat.add in
/-- Witness for C8 at 21.5 °C. -/
theorem C8_temperature_encoding_witness :
    pyTrunc ((43 / 2 : ℚ) * 2) = round ((43 / 2 : ℚ) * 2) ∧
    async_set_temperature (some (43 / 2 : ℚ)) =
      [Event.publish "05".toList "2B".toList] :=
  ⟨(C8_temperature_encoding (43 / 2 : ℚ)).2.2.1 (by decide)
    ⟨43, by decide⟩,
   (C8_temperature_encoding (43 / 2 : ℚ)).2.2.2⟩

/-! ## Claim C9: fan-mode input handling (corrected) -/

/-- C9 counterexample: the integer-parseable name "300" yields command
data `12C` — three hex characters, not a 2-digit hex byte — and building
a frame from it fails on the odd-length hex string, so the value is not
sent at all. -/
theorem C9_counterexample :
    async_set_fan_mode "300".toList =
      some [Event.publish "04".toList "12C".toList] ∧
    ("12C".toList).length ≠ 2 ∧
    build_payload "600194657C39".toList "01".toList "04".toList "01".toList
      "12C".toList = none := by
  decide

/-- C9 (amended): "AUTO" (case-insensitive) sends exactly one command
with data byte `0A` to fan register `04`; an integer-parseable name whose
value is below 256 is sent as its 2-digit hex byte; a name that is
neither "AUTO" nor integer-parseable raises in `int()` before any frame
is built, and no command is published. -/
theorem C9_fan_mode_handling (name : List Char) (n : Nat) :
    (name.map Char.toUpper = "AUTO".toList →
      async_set_fan_mode name =
        some [Event.publish "04".toList "0A".toList]) ∧
    (name.map Char.toUpper ≠ "AUTO".toList → pyInt10 name = some (n : Int) →
      n < 256 →
      async_set_fan_mode name =
        some [Event.publish "04".toList (pyHex2 n)] ∧
      (pyHex2 n).length = 2) ∧
    (name.map Char.toUpper ≠ "AUTO".toList → pyInt10 name = none →
      async_set_fan_mode name = none) := by
  refine ⟨?_, ?_, ?_⟩
  · intro h
    simp only [async_set_fan_mode, if_pos h]
    rfl
  · intro h hp hlt
    have hfmt : format02X ((n : Nat) : Int) = pyHex2 n := by
      rw [format02X, if_pos (Int.natCast_nonneg n), Int.toNat_natCast]
    simp only [async_set_fan_mode, if_neg h, hp, hfmt]
    exact ⟨rfl, pyHex2_length n hlt⟩
  · intro h hp
    simp only [async_set_fan_mode, if_neg h, hp]

/-- Witness for C9 on the three input classes: "auto", "5" and "fast". -/
theorem C9_fan_mode_handling_witness :
    async_set_fan_mode "auto".toList =
      some [Event.publish "04".toList "0A".toList] ∧
    (async_set_fan_mode "5".toList =
      some [Event.publish "04".toList (pyHex2 5)] ∧ (pyHex2 5).length = 2) ∧
    async_set_fan_mode "fast".toList = none :=
  ⟨(C9_fan_mode_handling "auto".toList 0).1 (by decide),
   (C9_fan_mode_handling "5".toList 5).2.1 (by decide) (by decide) (by decide),
   (C9_fan_mode_handling "fast".toList 0).2.2 (by decide) (by decide)⟩

/-! ## Claim C6: state interpretation and last-telemetry-wins -/

theorem hexChar_digit_bound (d : Nat) (h : d < 10) :
    48 ≤ (hexChar d).toNat ∧ (hexChar d).toNat ≤ 57 := by
  interval_cases d <;> decide

theorem natToDecimalAux_all_digits (fuel : Nat) :
    ∀ (n : Nat), ∀ c ∈ natToDecimalAux fuel n, 48 ≤ c.toNat ∧ c.toNat ≤ 57 := by
  induction fuel with
  | zero =>
    intro n c hc
    simp [natToDecimalAux] at hc
  | succ f ih =>
    intro n c hc
    rw [natToDecimalAux] at hc
    by_cases h : n < 10
    · rw [if_pos h] at hc
      rw [List.mem_singleton] at hc
      subst hc
      exact hexChar_digit_bound n h
    · rw [if_neg h, List.mem_append] at hc
      rcases hc with hc | hc
      · exact ih (n / 10) c hc
      · rw [List.mem_singleton] at hc
        subst hc
        exact hexChar_digit_bound (n % 10) (Nat.mod_lt n (by omega))

theorem natToDecimal_ne_AUTO (n : Nat) : natToDecimal n ≠ "AUTO".toList := by
  intro h
  have hA : 'A' ∈ natToDecimal n := by
    rw [h]
    decide
  have hb := natToDecimalAux_all_digits (n + 1) n 'A' hA
  exact absurd hb.2 (by decide)

theorem FAN_SPEED_MAP_auto_iff (n : Nat) :
    FAN_SPEED_MAP n = some ("AUTO".toList) ↔ n = 10 ∨ n = 255 := by
  rw [FAN_SPEED_MAP]
  split_ifs with h1 h2 h3 h4 h5 h6 h7
  · subst h1; decide
  · subst h2; decide
  · subst h3; decide
  · subst h4; decide
  · subst h5; decide
  · subst h6; simp
  · subst h7; simp
  · exact iff_of_false (by simp) (by rintro (rfl | rfl) <;> simp_all)

/-- C6: for every decoded snapshot applied to the entity state: if power
is not 1 the hvac mode becomes OFF regardless of the mode field; if power
is 1 the mode code maps 0 to fan-only, 1 to cool, 2 to dry, and any other
code yields OFF; the fan mode is the `FAN_SPEED_MAP` lookup of the
fan-speed code with decimal-string fallback, and it reads "AUTO" exactly
for the codes 10 and 255; and every field of the local state is
overwritten by the snapshot's values (the result does not depend on the
previous state). -/
theorem C6_state_interpretation (st st' : ClimateState) (d : Snapshot) :
    (d.power ≠ 1 → (update_state_from_decoded st d).hvac_mode = .off) ∧
    (d.power = 1 → d.mode = 0 →
      (update_state_from_decoded st d).hvac_mode = .fan_only) ∧
    (d.power = 1 → d.mode = 1 →
      (update_state_from_decoded st d).hvac_mode = .cool) ∧
    (d.power = 1 → d.mode = 2 →
      (update_state_from_decoded st d).hvac_mode = .dry) ∧
    (d.mode ≠ 0 → d.mode ≠ 1 → d.mode ≠ 2 →
      (update_state_from_decoded st d).hvac_mode = .off) ∧
    ((update_state_from_decoded st d).fan_mode = "AUTO".toList ↔
      d.fan_speed = 10 ∨ d.fan_speed = 255) ∧
    (FAN_SPEED_MAP d.fan_speed = none →
      (update_state_from_decoded st d).fan_mode = natToDecimal d.fan_speed) ∧
    (update_state_from_decoded st d).target_temperature = d.set_temp ∧
    (update_state_from_decoded st d).current_temperature = d.room_temp ∧
    (update_state_from_decoded st d).swing_mode =
      (SWING_MAP d.sweep_status).getD (natToDecimal d.sweep_status) ∧
    update_state_from_decoded st d = update_state_from_decoded st' d := by
  refine ⟨?_, ?_, ?_, ?_, ?_, ?_, ?_, rfl, rfl, rfl, rfl⟩
  · intro hp
    simp [update_state_from_decoded, hp]
  · intro hp hm
    simp [update_state_from_decoded, hp, hm, MODE_MAP]
  · intro hp hm
    simp [update_state_from_decoded, hp, hm, MODE_MAP]
  · intro hp hm
    simp [update_state_from_decoded, hp, hm, MODE_MAP]
  · intro h0 h1 h2
    by_cases hp : d.power = 1 <;>
      simp [update_state_from_decoded, hp, MODE_MAP, h0, h1, h2]
  · show (FAN_SPEED_MAP d.fan_speed).getD (natToDecimal d.fan_speed) =
      "AUTO".toList ↔ _
    cases hmap : FAN_SPEED_MAP d.fan_speed with
    | none =>
      simp only [Option.getD_none]
      exact iff_of_false (natToDecimal_ne_AUTO d.fan_speed)
        (by rintro (h | h) <;> rw [h] at hmap <;> simp [FAN_SPEED_MAP] at hmap)
    | some v =>
      simp only [Option.getD_some]
      constructor
      · intro hv
        subst hv
        exact (FAN_SPEED_MAP_auto_iff d.fan_speed).mp hmap
      · intro h
        have hs := (FAN_SPEED_MAP_auto_iff d.fan_speed).mpr h
        rw [hmap, Option.some.injEq] at hs
        exact hs
  · intro hmap
    show (FAN_SPEED_MAP d.fan_speed).getD (natToDecimal d.fan_speed) = _
    rw [hmap]
    rfl

/-- Witness for C6: a snapshot with power 1, mode 1 and fan code 255
yields COOL with fan mode "AUTO", independently of the previous state. -/
theorem C6_state_interpretation_witness :
    (update_state_from_decoded
        ⟨.off, 25, 27, "3".toList, "1".toList⟩
        ⟨1, 255, 20, 0, 1, 30⟩).hvac_mode = .cool ∧
    ((update_state_from_decoded
        ⟨.off, 25, 27, "3".toList, "1".toList⟩
        ⟨1, 255, 20, 0, 1, 30⟩).fan_mode = "AUTO".toList ↔
      (255 : Nat) = 10 ∨ (255 : Nat) = 255) ∧
    update_state_from_decoded
        ⟨.off, 25, 27, "3".toList, "1".toList⟩
        ⟨1, 255, 20, 0, 1, 30⟩ =
      update_state_from_decoded
        ⟨.cool, 16, 30, "AUTO".toList, "5".toList⟩
        ⟨1, 255, 20, 0, 1, 30⟩ := by
  have h := C6_state_interpretation
    ⟨.off, 25, 27, "3".toList, "1".toList⟩
    ⟨.cool, 16, 30, "AUTO".toList, "5".toList⟩
    ⟨1, 255, 20, 0, 1, 30⟩
  exact ⟨h.2.2.1 rfl rfl, h.2.2.2.2.2.1, h.2.2.2.2.2.2.2.2.2.2⟩

/-! ## Claim C10: multiply-wrapped payloads and delimiter stripping -/

theorem dropWhile_replicate_append (p : Char → Bool) (c : Char)
    (hc : p c = true) (k : Nat) (l : List Char) :
    (List.replicate k c ++ l).dropWhile p = l.dropWhile p := by
  induction k with
  | zero => rfl
  | succ k ih =>
    rw [List.replicate_succ, List.cons_append, List.dropWhile_cons, if_pos hc]
    exact ih

theorem dropWhile_append_of_ne_nil (p : Char → Bool) (l r a : List Char)
    (h : l.dropWhile p = a ∧ a ≠ []) :
    (l ++ r).dropWhile p = l.dropWhile p ++ r := by
  rw [List.dropWhile_append]
  rcases h with ⟨h1, h2⟩
  rw [h1]
  cases a with
  | nil => exact absurd rfl h2
  | cons x xs => simp

theorem stripBraces_replicate_left (m : Nat) (l : List Char) :
    stripBraces (List.replicate m '{' ++ l) = stripBraces l := by
  rw [stripBraces, stripBraces, dropWhile_replicate_append isBraceChar '{' rfl]

theorem stripBraces_append_close (F : List Char) (n : Nat) (hn : 1 ≤ n) :
    stripBraces (F ++ List.replicate n '}') = stripBraces (F ++ ['}']) := by
  have hrep : ∀ k, (List.replicate k '}').dropWhile isBraceChar = [] := by
    intro k
    have := dropWhile_replicate_append isBraceChar '}' rfl k []
    simpa using this
  cases hd : F.dropWhile isBraceChar with
  | nil =>
    have h1 : (F ++ List.replicate n '}').dropWhile isBraceChar = [] := by
      rw [List.dropWhile_append, hd]
      simpa using hrep n
    have h2 : (F ++ ['}']).dropWhile isBraceChar = [] := by
      rw [List.dropWhile_append, hd]
      simpa using hrep 1
    rw [stripBraces, stripBraces, h1, h2]
  | cons a as =>
    have h1 : (F ++ List.replicate n '}').dropWhile isBraceChar
        = (a :: as) ++ List.replicate n '}' := by
      rw [dropWhile_append_of_ne_nil isBraceChar F _ (a :: as) ⟨hd, by simp⟩, hd]
    have h2 : (F ++ ['}']).dropWhile isBraceChar = (a :: as) ++ ['}'] := by
      rw [dropWhile_append_of_ne_nil isBraceChar F _ (a :: as) ⟨hd, by simp⟩, hd]
    rw [stripBraces, stripBraces, h1, h2, List.reverse_append,
      List.reverse_append, List.reverse_replicate,
      dropWhile_replicate_append isBraceChar '}' rfl]
    rw [show (['}'] : List Char).reverse = List.replicate 1 '}' from rfl,
      dropWhile_replicate_append isBraceChar '}' rfl]

/-- C10: for every string F that neither starts with a `{` nor ends with
a `}`, and all wrap counts m, n at least 1, decoding m opening braces,
then F, then n closing braces yields exactly the same result as decoding
the singly wrapped payload — `strip("{}")` removes every leading and
trailing brace, not just one pair. -/
theorem C10_multi_wrapped_payloads (F : List Char) (m n : Nat)
    (hm : 1 ≤ m) (hn : 1 ≤ n)
    (hF1 : F.head? ≠ some '{') (hF2 : F.getLast? ≠ some '}') :
    decode_daikin_frame (List.replicate m '{' ++ F ++ List.replicate n '}') =
      decode_daikin_frame ('{' :: (F ++ ['}'])) := by
  obtain ⟨m', rfl⟩ : ∃ m', m = m' + 1 := ⟨m - 1, by omega⟩
  have hhead1 : (List.replicate (m' + 1) '{' ++ F ++ List.replicate n '}').head?
      = some '{' := by
    rw [List.replicate_succ]
    rfl
  have hrepLast : ∀ (l : List Char) (k : Nat) (c : Char),
      (l ++ List.replicate (k + 1) c).getLast? = some c := by
    intro l k c
    rw [List.replicate_succ', ← List.append_assoc, List.getLast?_concat]
  have hlast1 : (List.replicate (m' + 1) '{' ++ F ++ List.replicate n '}').getLast?
      = some '}' := by
    obtain ⟨n', rfl⟩ : ∃ n', n = n' + 1 := ⟨n - 1, by omega⟩
    exact hrepLast (List.replicate (m' + 1) '{' ++ F) n' '}'
  have hhead2 : ('{' :: (F ++ ['}'])).head? = some '{' := rfl
  have hlast2 : ('{' :: (F ++ ['}'])).getLast? = some '}' := by
    rw [show '{' :: (F ++ ['}']) = ('{' :: F) ++ ['}'] from rfl,
      List.getLast?_concat]
  have hstrip1 : stripBraces (List.replicate (m' + 1) '{' ++ F ++ List.replicate n '}')
      = stripBraces (F ++ ['}']) := by
    rw [List.append_assoc, stripBraces_replicate_left,
      stripBraces_append_close F n hn]
  have hstrip2 : stripBraces ('{' :: (F ++ ['}'])) = stripBraces (F ++ ['}']) := by
    have : '{' :: (F ++ ['}']) = List.replicate 1 '{' ++ (F ++ ['}']) := rfl
    rw [this, stripBraces_replicate_left]
  have e1 : decode_daikin_frame
      (List.replicate (m' + 1) '{' ++ F ++ List.replicate n '}') =
      (if (stripBraces (F ++ ['}'])).length < 30 then none
       else if validate_lrc_from_frame (stripBraces (F ++ ['}'])) then
         extractSnapshot (stripBraces (F ++ ['}']))
       else none) := by
    rw [decode_daikin_frame, if_pos ⟨hhead1, hlast1⟩, hstrip1]
  have e2 : decode_daikin_frame ('{' :: (F ++ ['}'])) =
      (if (stripBraces (F ++ ['}'])).length < 30 then none
       else if validate_lrc_from_frame (stripBraces (F ++ ['}'])) then
         extractSnapshot (stripBraces (F ++ ['}']))
       else none) := by
    rw [decode_daikin_frame, if_pos ⟨hhead2, hlast2⟩, hstrip2]
  rw [e1, e2]

/-- Witness for C10: a doubly opened, triply closed payload decodes the
same as the singly wrapped one. -/
theorem C10_multi_wrapped_payloads_witness :
    decode_daikin_frame
        (List.replicate 2 '{' ++ "X".toList ++ List.replicate 3 '}') =
      decode_daikin_frame ('{' :: ("X".toList ++ ['}'])) :=
  C10_multi_wrapped_payloads "X".toList 2 3 (by decide) (by decide)
    (by decide) (by decide)

/-! ## Claim C2: checksum round trip -/

theorem bytesToHex_cons (b : Nat) (bs : List Nat) :
    bytesToHex (b :: bs) = pyHex2 b ++ bytesToHex bs := rfl

theorem bytesToHex_append (l1 l2 : List Nat) :
    bytesToHex (l1 ++ l2) = bytesToHex l1 ++ bytesToHex l2 := by
  rw [bytesToHex, bytesToHex, bytesToHex, List.flatMap_append]

theorem bytesToHex_length (bs : List Nat) (h : ∀ x ∈ bs, x < 256) :
    (bytesToHex bs).length = 2 * bs.length := by
  induction bs with
  | nil => rfl
  | cons b bs ih =>
    rw [bytesToHex_cons, List.length_append,
      pyHex2_length b (h b (List.mem_cons_self b bs)),
      ih (fun x hx => h x (List.mem_cons_of_mem b hx)), List.length_cons]
    omega

theorem fromHex_bytesToHex (bs : List Nat) (h : ∀ x ∈ bs, x < 256) :
    fromHex (bytesToHex bs) = some bs := by
  induction bs with
  | nil => rfl
  | cons b bs ih =>
    have hb : b < 256 := h b (List.mem_cons_self b bs)
    have hbs : ∀ x ∈ bs, x < 256 := fun x hx => h x (List.mem_cons_of_mem b hx)
    rw [bytesToHex_cons, pyHex2_eq_pair b hb]
    show fromHex (hexChar (b / 16) :: hexChar (b % 16) :: bytesToHex bs) = _
    rw [fromHex, hexDigitVal_hexChar (b / 16) (by omega),
      hexDigitVal_hexChar (b % 16) (by omega), ih hbs]
    simp only [Option.some.injEq, List.cons.injEq]
    exact ⟨by omega, trivial⟩

/-- The value of `validate_lrc_from_frame` once the byte count parses
and the covered prefix is valid hex. -/
theorem validate_eq_of (frame : List Char) (bc : Nat) (db : List Nat)
    (h1 : byteCountOf frame = some bc)
    (h2 : fromHex (pySlice frame 0 (26 + bc * 2)) = some db) :
    validate_lrc_from_frame frame =
      (pyHex2 (calculate_lrc db) ==
        (pySlice frame (26 + bc * 2) (26 + bc * 2 + 2)).map Char.toUpper) := by
  rw [validate_lrc_from_frame]
  split
  next heq => rw [h1] at heq; cases heq
  next bc2 heq =>
    rw [h1, Option.some.injEq] at heq
    subst heq
    split
    next heq2 => rw [h2] at heq2; cases heq2
    next db2 heq2 =>
      rw [h2, Option.some.injEq] at heq2
      subst heq2
      rfl

/-- C2: for every byte sequence b, `calculate_lrc b` equals
`(0xFF - sum b % 256 + 1) % 256`, hence covered bytes plus checksum sum
to zero modulo 256; and every structurally well-formed frame — bytes
`pre ++ lo :: hi :: rest` with an 11-byte prefix, a little-endian byte
count `lo + 256*hi` equal to the data length, rendered in hex with
`calculate_lrc` of all covered bytes appended — passes
`validate_lrc_from_frame`. -/
theorem C2_checksum_roundtrip (b pre rest : List Nat) (lo hi : Nat)
    (hpre : pre.length = 11) (hrest : rest.length = lo + 256 * hi)
    (hall : ∀ x ∈ pre ++ lo :: hi :: rest, x < 256) :
    calculate_lrc b = (0xFF - b.sum % 256 + 1) % 256 ∧
    (b.sum + calculate_lrc b) % 256 = 0 ∧
    validate_lrc_from_frame
      (bytesToHex (pre ++ lo :: hi :: rest)
        ++ pyHex2 (calculate_lrc (pre ++ lo :: hi :: rest))) = true := by
  refine ⟨rfl, by rw [calculate_lrc]; omega, ?_⟩
  have hlo : lo < 256 := hall lo (by simp)
  have hhi : hi < 256 := hall hi (by simp)
  have hpreH : (bytesToHex pre).length = 22 := by
    rw [bytesToHex_length pre (fun x hx => hall x (List.mem_append_left _ hx)), hpre]
  have hlenBytes : (bytesToHex (pre ++ lo :: hi :: rest)).length
      = 26 + (lo + 256 * hi) * 2 := by
    rw [bytesToHex_length _ hall, List.length_append, hpre, List.length_cons,
      List.length_cons, hrest]
    omega
  have hsplit : bytesToHex (pre ++ lo :: hi :: rest)
      ++ pyHex2 (calculate_lrc (pre ++ lo :: hi :: rest))
      = bytesToHex pre ++ ((pyHex2 lo ++ pyHex2 hi) ++ (bytesToHex rest
          ++ pyHex2 (calculate_lrc (pre ++ lo :: hi :: rest)))) := by
    rw [bytesToHex_append, bytesToHex_cons, bytesToHex_cons]
    simp [List.append_assoc]
  have hbc : byteCountOf (bytesToHex (pre ++ lo :: hi :: rest)
      ++ pyHex2 (calculate_lrc (pre ++ lo :: hi :: rest)))
      = some (256 * hi + lo) := by
    have hs2226 : pySlice (bytesToHex (pre ++ lo :: hi :: rest)
        ++ pyHex2 (calculate_lrc (pre ++ lo :: hi :: rest))) 22 26
        = pyHex2 lo ++ pyHex2 hi := by
      rw [hsplit, pySlice, List.drop_left' hpreH]
      exact List.take_left' (by rw [List.length_append,
        pyHex2_length lo hlo, pyHex2_length hi hhi])
    rw [byteCountOf, hs2226]
    have hinner1 : pySlice (pyHex2 lo ++ pyHex2 hi) 2 4 = pyHex2 hi := by
      rw [pySlice, List.drop_left' (pyHex2_length lo hlo)]
      show (pyHex2 hi).take 2 = pyHex2 hi
      rw [← pyHex2_length hi hhi, List.take_length]
    have hinner2 : pySlice (pyHex2 lo ++ pyHex2 hi) 0 2 = pyHex2 lo := by
      rw [pySlice, List.drop_zero, Nat.sub_zero]
      exact List.take_left' (pyHex2_length lo hlo)
    rw [hinner1, hinner2, parseHex_pair hi lo hhi hlo]
  have hs0 : pySlice (bytesToHex (pre ++ lo :: hi :: rest)
      ++ pyHex2 (calculate_lrc (pre ++ lo :: hi :: rest))) 0
      (26 + (256 * hi + lo) * 2)
      = bytesToHex (pre ++ lo :: hi :: rest) := by
    rw [pySlice, List.drop_zero, Nat.sub_zero]
    exact List.take_left' (by omega)
  rw [validate_eq_of _ (256 * hi + lo) (pre ++ lo :: hi :: rest) hbc
    (by rw [hs0, fromHex_bytesToHex _ hall])]
  have hrecv : pySlice (bytesToHex (pre ++ lo :: hi :: rest)
      ++ pyHex2 (calculate_lrc (pre ++ lo :: hi :: rest)))
      (26 + (256 * hi + lo) * 2) (26 + (256 * hi + lo) * 2 + 2)
      = pyHex2 (calculate_lrc (pre ++ lo :: hi :: rest)) := by
    rw [pySlice, List.drop_left' (by omega)]
    have h2 : 26 + (256 * hi + lo) * 2 + 2 - (26 + (256 * hi + lo) * 2) = 2 := by
      omega
    rw [h2, ← pyHex2_length (calculate_lrc (pre ++ lo :: hi :: rest))
      (calculate_lrc_lt _), List.take_length]
  rw [hrecv, map_toUpper_pyHex2 _ (calculate_lrc_lt _)]
  exact beq_self_eq_true _


/-- Witness for C2 on a concrete 14-byte frame with one data byte. -/
theorem C2_checksum_roundtrip_witness :
    calculate_lrc [1, 2, 3] = (0xFF - [1, 2, 3].sum % 256 + 1) % 256 ∧
    (([1, 2, 3] : List Nat).sum + calculate_lrc [1, 2, 3]) % 256 = 0 ∧
    validate_lrc_from_frame
      (bytesToHex (List.replicate 11 0 ++ 1 :: 0 :: [7])
        ++ pyHex2 (calculate_lrc (List.replicate 11 0 ++ 1 :: 0 :: [7]))) =
      true :=
  C2_checksum_roundtrip [1, 2, 3] (List.replicate 11 0) [7] 1 0
    (by decide) (by decide) (by decide)

/-! ## Claim C3: decode field offsets (corrected) -/

/-- Inversion of a successful decode: the structural guards passed, the
LRC validated and extraction succeeded on the stripped frame. -/
theorem decode_some_inv (payload : List Char) (s : Snapshot)
    (h : decode_daikin_frame payload = some s) :
    payload.head? = some '{' ∧ payload.getLast? = some '}' ∧
    ¬ (stripBraces payload).length < 30 ∧
    validate_lrc_from_frame (stripBraces payload) = true ∧
    extractSnapshot (stripBraces payload) = some s := by
  rw [decode_daikin_frame] at h
  by_cases h1 : payload.head? = some '{' ∧ payload.getLast? = some '}'
  · rw [if_pos h1] at h
    by_cases h2 : (stripBraces payload).length < 30
    · rw [if_pos h2] at h
      cases h
    · rw [if_neg h2] at h
      by_cases h3 : validate_lrc_from_frame (stripBraces payload) = true
      · rw [if_pos h3] at h
        exact ⟨h1.1, h1.2, h2, h3, h⟩
      · rw [if_neg h3] at h
        cases h
  · rw [if_neg h1] at h
    cases h

/-- Inversion of a successful field extraction: every field of the
snapshot comes from `to_int` at the stated hex-character offset of the
data segment. -/
theorem extract_some_inv (frame : List Char) (s : Snapshot)
    (h : extractSnapshot frame = some s) :
    ∃ bc, byteCountOf frame = some bc ∧
      toIntAt (pySlice frame 26 (26 + bc * 2)) 4 = some s.power ∧
      toIntAt (pySlice frame 26 (26 + bc * 2)) 8 = some s.fan_speed ∧
      (∃ r, toIntAt (pySlice frame 26 (26 + bc * 2)) 10 = some r ∧
        s.set_temp = (r : ℚ) / 2) ∧
      toIntAt (pySlice frame 26 (26 + bc * 2)) 14 = some s.sweep_status ∧
      toIntAt (pySlice frame 26 (26 + bc * 2)) 16 = some s.mode ∧
      (∃ rlo rhi, toIntAt (pySlice frame 26 (26 + bc * 2)) 18 = some rlo ∧
        toIntAt (pySlice frame 26 (26 + bc * 2)) 20 = some rhi ∧
        s.room_temp = (256 * (rhi : ℚ) + (rlo : ℚ)) / 10) := by
  rw [extractSnapshot] at h
  split at h
  · cases h
  next bc heq =>
    split at h
    next power fan sraw sweep mode rlo rhi h4 h8 h10 h14 h16 h18 h20 =>
      rw [Option.some.injEq] at h
      subst h
      exact ⟨bc, heq, h4, h8, ⟨sraw, h10, rfl⟩, h14, h16,
        ⟨rlo, rhi, h18, h20, rfl⟩⟩
    next => cases h

unseal Rat.mul Rat.inv Rat.add in
/-- C3 counterexample: for the docstring example frame, decode succeeds
with power 0 (read from hex-character offset 4 of the data segment),
while the byte of the data segment at byte offset 4 (hex characters
8 and 9) is 7 — the claim's byte-offset reading does not match the code. -/
theorem C3_counterexample :
    decode_daikin_frame examplePayload = some exampleSnapshot ∧
    exampleSnapshot.power = 0 ∧
    toIntAt (pySlice (stripBraces examplePayload) 26 68) (2 * 4) = some 7 ∧
    (0 : Nat) ≠ 7 := by
  refine ⟨by decide, rfl, by decide, by decide⟩

/-- C3 (amended): for every frame that decodes successfully, the
snapshot fields equal the `to_int` readings of the data segment at
hex-character offsets — power at 4, fan-speed at 8, set-temp at 10
divided by 2, sweep at 14, mode at 16, and room-temp equal to
`(256 * value-at-20 + value-at-18) / 10` — that is, at byte offsets
2, 4, 5, 7, 8 and 9/10, each reading spanning 2 hex characters. -/
theorem C3_decode_field_offsets (payload : List Char) (s : Snapshot)
    (h : decode_daikin_frame payload = some s) :
    ∃ bc, byteCountOf (stripBraces payload) = some bc ∧
      toIntAt (pySlice (stripBraces payload) 26 (26 + bc * 2)) 4
        = some s.power ∧
      toIntAt (pySlice (stripBraces payload) 26 (26 + bc * 2)) 8
        = some s.fan_speed ∧
      (∃ r, toIntAt (pySlice (stripBraces payload) 26 (26 + bc * 2)) 10
          = some r ∧ s.set_temp = (r : ℚ) / 2) ∧
      toIntAt (pySlice (stripBraces payload) 26 (26 + bc * 2)) 14
        = some s.sweep_status ∧
      toIntAt (pySlice (stripBraces payload) 26 (26 + bc * 2)) 16
        = some s.mode ∧
      (∃ rlo rhi, toIntAt (pySlice (stripBraces payload) 26 (26 + bc * 2)) 18
          = some rlo ∧
        toIntAt (pySlice (stripBraces payload) 26 (26 + bc * 2)) 20
          = some rhi ∧
        s.room_temp = (256 * (rhi : ℚ) + (rlo : ℚ)) / 10) :=
  extract_some_inv (stripBraces payload) s (decode_some_inv payload s h).2.2.2.2

unseal Rat.mul Rat.inv Rat.add in
/-- Witness for C3 on the docstring example frame. -/
theorem C3_decode_field_offsets_witness :
    ∃ bc, byteCountOf (stripBraces examplePayload) = some bc ∧
      toIntAt (pySlice (stripBraces examplePayload) 26 (26 + bc * 2)) 4
        = some exampleSnapshot.power ∧
      toIntAt (pySlice (stripBraces examplePayload) 26 (26 + bc * 2)) 8
        = some exampleSnapshot.fan_speed ∧
      (∃ r, toIntAt (pySlice (stripBraces examplePayload) 26 (26 + bc * 2)) 10
          = some r ∧ exampleSnapshot.set_temp = (r : ℚ) / 2) ∧
      toIntAt (pySlice (stripBraces examplePayload) 26 (26 + bc * 2)) 14
        = some exampleSnapshot.sweep_status ∧
      toIntAt (pySlice (stripBraces examplePayload) 26 (26 + bc * 2)) 16
        = some exampleSnapshot.mode ∧
      (∃ rlo rhi,
        toIntAt (pySlice (stripBraces examplePayload) 26 (26 + bc * 2)) 18
          = some rlo ∧
        toIntAt (pySlice (stripBraces examplePayload) 26 (26 + bc * 2)) 20
          = some rhi ∧
        exampleSnapshot.room_temp = (256 * (rhi : ℚ) + (rlo : ℚ)) / 10) :=
  C3_decode_field_offsets examplePayload exampleSnapshot (by decide)

/-! ## Claim C1: build/decode round trip (corrected) -/

/-- C1 counterexample: a concrete single-register write frame built by
`build_payload` is wrapped in parentheses, not in the braces that decode
requires, and decoding the built text therefore yields no result. -/
theorem C1_counterexample :
    build_payload "600194657C39".toList "01".toList "05".toList "01".toList
        "2B".toList
      = some "(600194657C39000001050101002BBE)".toList ∧
    ("(600194657C39000001050101002BBE)".toList).head? ≠ some '{' ∧
    decode_daikin_frame "(600194657C39000001050101002BBE)".toList = none := by
  decide

theorem fromHex_total : ∀ (l : List Char), l.length % 2 = 0 →
    (∀ c ∈ l, (hexDigitVal c).isSome) → ∃ bs, fromHex l = some bs
  | [], _, _ => ⟨[], rfl⟩
  | [c], h, _ => by simp at h
  | a :: b :: rest, h, hall => by
    obtain ⟨da, hda⟩ := Option.isSome_iff_exists.mp (hall a (by simp))
    obtain ⟨db, hdb⟩ := Option.isSome_iff_exists.mp (hall b (by simp))
    obtain ⟨bs, hbs⟩ := fromHex_total rest
      (by simp only [List.length_cons] at h; omega)
      (fun c hc => hall c (by simp [hc]))
    exact ⟨(16 * da + db) :: bs, by rw [fromHex, hda, hdb, hbs]⟩

theorem isHexStr_append (a b : List Char) :
    isHexStr (a ++ b) = (isHexStr a && isHexStr b) := by
  rw [isHexStr, isHexStr, isHexStr, List.all_append]

theorem isHexStr_mem (l : List Char) (h : isHexStr l = true) :
    ∀ c ∈ l, (hexDigitVal c).isSome := by
  intro c hc
  exact List.all_eq_true.mp h c hc

/-- The value of `build_payload` once the base text is valid hex. -/
theorem build_payload_eq_of (mac func start_reg reg_count data : List Char)
    (bs : List Nat)
    (h : fromHex (buildBase mac func start_reg reg_count data) = some bs) :
    build_payload mac func start_reg reg_count data =
      some ('(' :: (buildBase mac func start_reg reg_count data
        ++ pyHex2 (calculate_lrc bs)) ++ [')']) := by
  rw [build_payload]
  split
  next heq => rw [h] at heq; cases heq
  next bs2 heq =>
    rw [h, Option.some.injEq] at heq
    subst heq
    rfl

theorem pySlice_of_append (A B C : List Char) (a b : Nat)
    (ha : A.length = a) (hb : B.length = b - a) :
    pySlice (A ++ B ++ C) a b = B := by
  rw [pySlice, List.append_assoc, List.drop_left' ha, List.take_left' hb]

/-- C1 (amended): for every device address whose normalized form is 12
hex characters and 1-byte hex function code, start register, register
count and single-byte data, `build_payload` succeeds and wraps the frame
in parentheses `(`/`)` (not in the braces decode requires); the wrapped
frame text reproduces the start register at hex characters [18,20) and
the data byte at [26,28) (the symmetric write-frame field extraction),
and it passes `validate_lrc_from_frame`; but feeding the built text to
`_decode_daikin_frame` yields no result because of the delimiter
mismatch. -/
theorem C1_build_parenthesized_roundtrip
    (mac func start_reg reg_count data : List Char)
    (hm12 : (normalizeMac mac).length = 12)
    (hmh : isHexStr (normalizeMac mac) = true)
    (hf : func.length = 2) (hfh : isHexStr func = true)
    (hr : start_reg.length = 2) (hrh : isHexStr start_reg = true)
    (hc : reg_count.length = 2) (hch : isHexStr reg_count = true)
    (hd : data.length = 2) (hdh : isHexStr data = true) :
    ∃ bs, fromHex (buildBase mac func start_reg reg_count data) = some bs ∧
      build_payload mac func start_reg reg_count data =
        some ('(' :: (buildBase mac func start_reg reg_count data
          ++ pyHex2 (calculate_lrc bs)) ++ [')']) ∧
      pySlice (buildBase mac func start_reg reg_count data
        ++ pyHex2 (calculate_lrc bs)) 18 20 = start_reg ∧
      pySlice (buildBase mac func start_reg reg_count data
        ++ pyHex2 (calculate_lrc bs)) 26 28 = data ∧
      validate_lrc_from_frame (buildBase mac func start_reg reg_count data
        ++ pyHex2 (calculate_lrc bs)) = true ∧
      decode_daikin_frame ('(' :: (buildBase mac func start_reg reg_count data
        ++ pyHex2 (calculate_lrc bs)) ++ [')']) = none := by
  have hbb : buildBase mac func start_reg reg_count data
      = normalizeMac mac ++ "0000".toList ++ func ++ start_reg ++ reg_count
        ++ pyHex2 1 ++ pyHex2 0 ++ data := by
    rw [buildBase, hd]
  have e4 : ("0000".toList : List Char).length = 4 := rfl
  have e1 : (pyHex2 1).length = 2 := rfl
  have e0 : (pyHex2 0).length = 2 := rfl
  have hlen0 : (buildBase mac func start_reg reg_count data).length = 28 := by
    rw [hbb]
    simp only [List.length_append]
    rw [hm12, hf, hr, hc, hd, e4, e1, e0]
  have hhex : isHexStr (buildBase mac func start_reg reg_count data) = true := by
    have z4 : isHexStr "0000".toList = true := by decide
    have z1 : isHexStr (pyHex2 1) = true := by decide
    have z0 : isHexStr (pyHex2 0) = true := by decide
    rw [hbb]
    simp only [isHexStr_append, hmh, hfh, hrh, hch, hdh, z4, z1, z0,
      Bool.and_self]
  obtain ⟨bs, hbs⟩ := fromHex_total (buildBase mac func start_reg reg_count data)
    (by rw [hlen0]) (isHexStr_mem _ hhex)
  refine ⟨bs, hbs,
    build_payload_eq_of mac func start_reg reg_count data bs hbs, ?_, ?_, ?_, ?_⟩
  · have hE : buildBase mac func start_reg reg_count data
        ++ pyHex2 (calculate_lrc bs)
        = (normalizeMac mac ++ "0000".toList ++ func) ++ start_reg
          ++ (reg_count ++ pyHex2 1 ++ pyHex2 0 ++ data
              ++ pyHex2 (calculate_lrc bs)) := by
      rw [hbb]
      simp [List.append_assoc]
    rw [hE, pySlice_of_append _ _ _ 18 20
      (by simp only [List.length_append]; rw [hm12, hf, e4])
      (by rw [hr])]
  · have hE : buildBase mac func start_reg reg_count data
        ++ pyHex2 (calculate_lrc bs)
        = (normalizeMac mac ++ "0000".toList ++ func ++ start_reg ++ reg_count
            ++ pyHex2 1 ++ pyHex2 0) ++ data
          ++ pyHex2 (calculate_lrc bs) := by
      rw [hbb]
    rw [hE, pySlice_of_append _ _ _ 26 28
      (by simp only [List.length_append]; rw [hm12, hf, hr, hc, e4, e1, e0])
      (by rw [hd])]
  · have hbc : byteCountOf (buildBase mac func start_reg reg_count data
        ++ pyHex2 (calculate_lrc bs)) = some 1 := by
      have hs2226 : pySlice (buildBase mac func start_reg reg_count data
          ++ pyHex2 (calculate_lrc bs)) 22 26 = pyHex2 1 ++ pyHex2 0 := by
        have hE : buildBase mac func start_reg reg_count data
            ++ pyHex2 (calculate_lrc bs)
            = (normalizeMac mac ++ "0000".toList ++ func ++ start_reg
                ++ reg_count) ++ (pyHex2 1 ++ pyHex2 0)
              ++ (data ++ pyHex2 (calculate_lrc bs)) := by
          rw [hbb]
          simp [List.append_assoc]
        rw [hE, pySlice_of_append _ _ _ 22 26
          (by simp only [List.length_append]; rw [hm12, hf, hr, hc, e4])
          (by simp only [List.length_append]; rw [e1, e0])]
      rw [byteCountOf, hs2226]
      decide
    have hfrom : fromHex (pySlice (buildBase mac func start_reg reg_count data
        ++ pyHex2 (calculate_lrc bs)) 0 (26 + 1 * 2)) = some bs := by
      have hsl : pySlice (buildBase mac func start_reg reg_count data
          ++ pyHex2 (calculate_lrc bs)) 0 (26 + 1 * 2)
          = buildBase mac func start_reg reg_count data := by
        rw [pySlice, List.drop_zero]
        exact List.take_left' (by rw [hlen0])
      rw [hsl]
      exact hbs
    rw [validate_eq_of _ 1 bs hbc hfrom]
    have hrecv : pySlice (buildBase mac func start_reg reg_count data
        ++ pyHex2 (calculate_lrc bs)) (26 + 1 * 2) (26 + 1 * 2 + 2)
        = pyHex2 (calculate_lrc bs) := by
      rw [pySlice, List.drop_left' (by rw [hlen0])]
      have h2 : 26 + 1 * 2 + 2 - (26 + 1 * 2) = 2 := by omega
      rw [h2, ← pyHex2_length (calculate_lrc bs) (calculate_lrc_lt bs),
        List.take_length]
    rw [hrecv, map_toUpper_pyHex2 _ (calculate_lrc_lt bs)]
    exact beq_self_eq_true _
  · rw [decode_daikin_frame, if_neg]
    rintro ⟨hh, _⟩
    cases hh

/-- Witness for C1 on the concrete power-off-style write command
`reg 05, data 2B` to the example device. -/
theorem C1_build_parenthesized_roundtrip_witness :
    ∃ bs, fromHex (buildBase "600194657C39".toList "01".toList "05".toList
        "01".toList "2B".toList) = some bs ∧
      build_payload "600194657C39".toList "01".toList "05".toList "01".toList
          "2B".toList =
        some ('(' :: (buildBase "600194657C39".toList "01".toList "05".toList
          "01".toList "2B".toList ++ pyHex2 (calculate_lrc bs)) ++ [')']) ∧
      pySlice (buildBase "600194657C39".toList "01".toList "05".toList
          "01".toList "2B".toList ++ pyHex2 (calculate_lrc bs)) 18 20
        = "05".toList ∧
      pySlice (buildBase "600194657C39".toList "01".toList "05".toList
          "01".toList "2B".toList ++ pyHex2 (calculate_lrc bs)) 26 28
        = "2B".toList ∧
      validate_lrc_from_frame (buildBase "600194657C39".toList "01".toList
          "05".toList "01".toList "2B".toList ++ pyHex2 (calculate_lrc bs))
        = true ∧
      decode_daikin_frame ('(' :: (buildBase "600194657C39".toList
          "01".toList "05".toList "01".toList "2B".toList
        ++ pyHex2 (calculate_lrc bs)) ++ [')']) = none :=
  C1_build_parenthesized_roundtrip "600194657C39".toList "01".toList
    "05".toList "01".toList "2B".toList (by decide) (by decide) (by decide)
    (by decide) (by decide) (by decide) (by decide) (by decide) (by decide)
    (by decide)

/-! ## Claim C4: checksum-mismatch rejection (corrected) -/

theorem hexDigitVal_lt (c : Char) (d : Nat) (h : hexDigitVal c = some d) :
    d < 16 := by
  rw [hexDigitVal] at h
  split_ifs at h with h1 h2 h3 <;> rw [Option.some.injEq] at h <;> omega

theorem take_set_of_le (l : List Char) (j n : Nat) (c : Char) (h : n ≤ j) :
    (l.set j c).take n = l.take n := by
  apply List.ext_getElem?
  intro m
  rw [List.getElem?_take, List.getElem?_take]
  by_cases hm : m < n
  · rw [if_pos hm, if_pos hm, List.getElem?_set, if_neg (by omega)]
  · rw [if_neg hm, if_neg hm]

theorem take_set_of_lt (l : List Char) (j n : Nat) (c : Char) (h : j < n) :
    (l.set j c).take n = (l.take n).set j c := by
  apply List.ext_getElem?
  intro m
  rw [List.getElem?_take, List.getElem?_set, List.getElem?_set,
    List.length_take]
  by_cases hjm : j = m
  · subst hjm
    rw [if_pos rfl, if_pos rfl, if_pos h]
    by_cases hl : j < l.length
    · rw [if_pos hl, if_pos (by omega)]
    · rw [if_neg hl, if_neg (by omega)]
  · rw [if_neg hjm, if_neg hjm, List.getElem?_take]

theorem dropWhile_head_not (q : Char → Bool) (l : List Char) (a : Char)
    (h : (l.dropWhile q).head? = some a) : q a = false := by
  induction l with
  | nil => cases h
  | cons x t ih =>
    rw [List.dropWhile_cons] at h
    cases hqx : q x with
    | true => rw [if_pos hqx] at h; exact ih h
    | false =>
      rw [if_neg (by rw [hqx]; exact Bool.false_ne_true)] at h
      rw [List.head?_cons, Option.some.injEq] at h
      subst h
      exact hqx

theorem stripBraces_head_not (l : List Char) (a : Char)
    (h : (stripBraces l).head? = some a) : isBraceChar a = false := by
  rw [stripBraces, List.head?_reverse] at h
  have hsuf := List.dropWhile_suffix (l := (l.dropWhile isBraceChar).reverse)
    isBraceChar
  obtain ⟨t, ht⟩ := hsuf
  have hgl : ((l.dropWhile isBraceChar).reverse).getLast? = some a := by
    rw [← ht, List.getLast?_append, h]
    rfl
  rw [List.getLast?_reverse] at hgl
  exact dropWhile_head_not isBraceChar l a hgl

theorem stripBraces_getLast_not (l : List Char) (b : Char)
    (h : (stripBraces l).getLast? = some b) : isBraceChar b = false := by
  rw [stripBraces, List.getLast?_reverse] at h
  exact dropWhile_head_not isBraceChar (l.dropWhile isBraceChar).reverse b h

theorem stripBraces_wrap (g : List Char) (a b : Char)
    (hh : g.head? = some a) (ha : isBraceChar a = false)
    (hl : g.getLast? = some b) (hb : isBraceChar b = false) :
    stripBraces ('{' :: (g ++ ['}'])) = g := by
  obtain ⟨t, rfl⟩ : ∃ t, g = a :: t := by
    cases g with
    | nil => cases hh
    | cons x t =>
      rw [List.head?_cons, Option.some.injEq] at hh
      subst hh
      exact ⟨t, rfl⟩
  have h1 : ('{' :: (a :: t ++ ['}'])).dropWhile isBraceChar
      = a :: (t ++ ['}']) := by
    rw [List.dropWhile_cons, if_pos (by decide), List.cons_append,
      List.dropWhile_cons, if_neg (by rw [ha]; exact Bool.false_ne_true)]
  have h2 : (a :: (t ++ ['}'])).reverse = '}' :: (a :: t).reverse := by
    rw [show a :: (t ++ ['}']) = (a :: t) ++ ['}'] from rfl,
      List.reverse_append]
    rfl
  have hrevhead : (a :: t).reverse.head? = some b := by
    rw [List.head?_reverse]
    exact hl
  obtain ⟨s, hs⟩ : ∃ s, (a :: t).reverse = b :: s := by
    cases hrev : (a :: t).reverse with
    | nil => rw [hrev] at hrevhead; cases hrevhead
    | cons y s =>
      rw [hrev, List.head?_cons, Option.some.injEq] at hrevhead
      subst hrevhead
      exact ⟨s, rfl⟩
  rw [stripBraces, h1, h2, List.dropWhile_cons, if_pos (by decide), hs,
    List.dropWhile_cons, if_neg (by rw [hb]; exact Bool.false_ne_true), ← hs,
    List.reverse_reverse]

/-- The value of `validate_lrc_from_frame` when the covered prefix fails
to parse as hex. -/
theorem validate_eq_false_of (frame : List Char) (bc : Nat)
    (h1 : byteCountOf frame = some bc)
    (h2 : fromHex (pySlice frame 0 (26 + bc * 2)) = none) :
    validate_lrc_from_frame frame = false := by
  rw [validate_lrc_from_frame]
  split
  next heq => rfl
  next bc2 heq =>
    rw [h1, Option.some.injEq] at heq
    subst heq
    split
    next => rfl
    next db2 heq2 => rw [h2] at heq2; cases heq2

/-- Inversion of a successful LRC validation. -/
theorem validate_true_inv (frame : List Char)
    (h : validate_lrc_from_frame frame = true) :
    ∃ bc db, byteCountOf frame = some bc ∧
      fromHex (pySlice frame 0 (26 + bc * 2)) = some db ∧
      pyHex2 (calculate_lrc db) =
        (pySlice frame (26 + bc * 2) (26 + bc * 2 + 2)).map Char.toUpper := by
  rw [validate_lrc_from_frame] at h
  split at h
  · cases h
  next bc heq =>
    split at h
    · cases h
    next db heq2 => exact ⟨bc, db, heq, heq2, eq_of_beq h⟩

theorem calculate_lrc_mod_ne (x y : List Nat)
    (h : x.sum % 256 ≠ y.sum % 256) : calculate_lrc x ≠ calculate_lrc y := by
  rw [calculate_lrc, calculate_lrc]
  omega

/-- Replacing one character of a valid hex string by a character with a
different hex value (or no hex value at all) either breaks the parse or
changes the byte sum modulo 256. -/
theorem fromHex_set_sum : ∀ (l : List Char) (bs : List Nat) (i : Nat)
    (c orig : Char), fromHex l = some bs → l[i]? = some orig →
    hexDigitVal c ≠ hexDigitVal orig →
    fromHex (l.set i c) = none ∨
      ∃ bs', fromHex (l.set i c) = some bs' ∧ bs'.sum % 256 ≠ bs.sum % 256
  | [], bs, i, c, orig, h, hg, _ => by cases hg
  | [a], bs, i, c, orig, h, hg, _ => by cases h
  | a :: b :: rest, bs, i, c, orig, h, hg, hne => by
    rw [fromHex] at h
    split at h
    case _ hi lo bs0 hda hdb hrest =>
      rw [Option.some.injEq] at h
      subst h
      have hhi : hi < 16 := hexDigitVal_lt a hi hda
      have hlo : lo < 16 := hexDigitVal_lt b lo hdb
      match i, hg with
      | 0, hg =>
        rw [List.getElem?_cons_zero, Option.some.injEq] at hg
        subst hg
        cases hdc : hexDigitVal c with
        | none =>
          left
          show fromHex (c :: b :: rest) = none
          rw [fromHex, hdc]
        | some dc =>
          right
          have hdcne : dc ≠ hi := by
            intro hEq
            subst hEq
            exact hne (by rw [hdc, hda])
          have hdc16 : dc < 16 := hexDigitVal_lt c dc hdc
          refine ⟨(16 * dc + lo) :: bs0, ?_, ?_⟩
          · show fromHex (c :: b :: rest) = _
            rw [fromHex, hdc, hdb, hrest]
          · rw [List.sum_cons, List.sum_cons]
            omega
      | 1, hg =>
        rw [List.getElem?_cons_succ, List.getElem?_cons_zero,
          Option.some.injEq] at hg
        subst hg
        cases hdc : hexDigitVal c with
        | none =>
          left
          show fromHex (a :: c :: rest) = none
          rw [fromHex, hda, hdc]
        | some dc =>
          right
          have hdcne : dc ≠ lo := by
            intro hEq
            subst hEq
            exact hne (by rw [hdc, hdb])
          have hdc16 : dc < 16 := hexDigitVal_lt c dc hdc
          refine ⟨(16 * hi + dc) :: bs0, ?_, ?_⟩
          · show fromHex (a :: c :: rest) = _
            rw [fromHex, hda, hdc, hrest]
          · rw [List.sum_cons, List.sum_cons]
            omega
      | j + 2, hg =>
        rw [List.getElem?_cons_succ, List.getElem?_cons_succ] at hg
        have ih := fromHex_set_sum rest bs0 j c orig hrest hg hne
        rcases ih with ih | ⟨bs0', hsome, hsum⟩
        · left
          show fromHex (a :: b :: rest.set j c) = none
          rw [fromHex, hda, hdb, ih]
        · right
          refine ⟨(16 * hi + lo) :: bs0', ?_, ?_⟩
          · show fromHex (a :: b :: rest.set j c) = _
            rw [fromHex, hda, hdb, hsome]
          · rw [List.sum_cons, List.sum_cons]
            omega
    case _ hcatch =>
      cases h

/-- C4 (amended): for every payload that decodes to a snapshot, altering
any single character of its data segment to a character with a different
hexadecimal value (a different hex digit, or a non-hex character —
case-only changes such as `a` to `A` keep the same value and are the one
exception to the claim as stated) makes decode yield no result; and in
general every payload whose stripped frame fails the LRC check is
rejected with no result, so no snapshot field is ever extracted from it. -/
theorem C4_checksum_mismatch_rejection (payload : List Char) (s : Snapshot)
    (bc i : Nat) (c orig : Char)
    (hdec : decode_daikin_frame payload = some s)
    (hbc : byteCountOf (stripBraces payload) = some bc)
    (hi26 : 26 ≤ i) (hide : i < 26 + bc * 2)
    (horig : (stripBraces payload)[i]? = some orig)
    (hval : hexDigitVal c ≠ hexDigitVal orig) :
    decode_daikin_frame
        ('{' :: ((stripBraces payload).set i c ++ ['}'])) = none ∧
    (∀ q, validate_lrc_from_frame (stripBraces q) = false →
      decode_daikin_frame q = none) := by
  constructor
  · obtain ⟨hh, hl, hlen30, hvalf, hext⟩ := decode_some_inv payload s hdec
    obtain ⟨bc2, db, hbc2, hfrom, hcmp⟩ :=
      validate_true_inv (stripBraces payload) hvalf
    rw [hbc, Option.some.injEq] at hbc2
    subst hbc2
    have hflen : 26 + bc * 2 + 2 ≤ (stripBraces payload).length := by
      have hlenmap : ((pySlice (stripBraces payload) (26 + bc * 2)
          (26 + bc * 2 + 2)).map Char.toUpper).length = 2 := by
        rw [← hcmp, pyHex2_length _ (calculate_lrc_lt db)]
      rw [List.length_map, pySlice, List.length_take, List.length_drop]
        at hlenmap
      omega
    have hlenge : 30 ≤ (stripBraces payload).length := by omega
    have hu : pySlice (stripBraces payload) 0 (26 + bc * 2)
        = (stripBraces payload).take (26 + bc * 2) := by
      rw [pySlice, List.drop_zero, Nat.sub_zero]
    have horigu : ((stripBraces payload).take (26 + bc * 2))[i]? = some orig := by
      rw [List.getElem?_take, if_pos hide]
      exact horig
    rw [hu] at hfrom
    have hdisj := fromHex_set_sum ((stripBraces payload).take (26 + bc * 2))
      db i c orig hfrom horigu hval
    have hglen : ((stripBraces payload).set i c).length
        = (stripBraces payload).length := List.length_set _ _ _
    have hslice2226 : pySlice ((stripBraces payload).set i c) 22 26
        = pySlice (stripBraces payload) 22 26 := by
      rw [pySlice, pySlice, List.drop_set, if_neg (by omega)]
      exact take_set_of_le _ (i - 22) (26 - 22) c (by omega)
    have hbcg : byteCountOf ((stripBraces payload).set i c) = some bc := by
      have hbcf := hbc
      rw [byteCountOf] at hbcf
      rw [byteCountOf, hslice2226]
      exact hbcf
    have hug : pySlice ((stripBraces payload).set i c) 0 (26 + bc * 2)
        = ((stripBraces payload).take (26 + bc * 2)).set i c := by
      rw [pySlice, List.drop_zero, Nat.sub_zero]
      exact take_set_of_lt (stripBraces payload) i (26 + bc * 2) c hide
    have hrecg : pySlice ((stripBraces payload).set i c) (26 + bc * 2)
        (26 + bc * 2 + 2)
        = pySlice (stripBraces payload) (26 + bc * 2) (26 + bc * 2 + 2) := by
      rw [pySlice, pySlice, List.drop_set, if_pos hide]
    have hvalg : validate_lrc_from_frame ((stripBraces payload).set i c)
        = false := by
      rcases hdisj with hnone | ⟨db', hsome, hsum⟩
      · exact validate_eq_false_of _ bc hbcg (by rw [hug]; exact hnone)
      · rw [validate_eq_of _ bc db' hbcg (by rw [hug]; exact hsome), hrecg,
          ← hcmp, beq_eq_false_iff_ne]
        intro hEq
        exact calculate_lrc_mod_ne db' db hsum
          (pyHex2_inj _ _ (calculate_lrc_lt db') (calculate_lrc_lt db) hEq)
    obtain ⟨a0, ha0⟩ : ∃ a0, (stripBraces payload).head? = some a0 := by
      rw [List.head?_eq_getElem?, List.getElem?_eq_getElem
        (show 0 < (stripBraces payload).length by omega)]
      exact ⟨_, rfl⟩
    have hbna : isBraceChar a0 = false := stripBraces_head_not payload a0 ha0
    obtain ⟨b0, hb0⟩ : ∃ b0, (stripBraces payload).getLast? = some b0 := by
      rw [List.getLast?_eq_getElem?, List.getElem?_eq_getElem
        (show (stripBraces payload).length - 1 < (stripBraces payload).length
          by omega)]
      exact ⟨_, rfl⟩
    have hbnb : isBraceChar b0 = false :=
      stripBraces_getLast_not payload b0 hb0
    have hghead : ((stripBraces payload).set i c).head? = some a0 := by
      rw [List.head?_eq_getElem?, List.getElem?_set, if_neg (by omega),
        ← List.head?_eq_getElem?]
      exact ha0
    have hglast : ((stripBraces payload).set i c).getLast? = some b0 := by
      rw [List.getLast?_eq_getElem?, hglen, List.getElem?_set,
        if_neg (by omega), ← List.getLast?_eq_getElem?]
      exact hb0
    have hstrip : stripBraces
        ('{' :: ((stripBraces payload).set i c ++ ['}']))
        = (stripBraces payload).set i c :=
      stripBraces_wrap _ _ _ hghead hbna hglast hbnb
    rw [decode_daikin_frame, if_pos ⟨rfl, by
      rw [show '{' :: ((stripBraces payload).set i c ++ ['}'])
          = ('{' :: (stripBraces payload).set i c) ++ ['}'] from rfl,
        List.getLast?_concat]⟩, hstrip,
      if_neg (by rw [hglen]; omega),
      if_neg (by rw [hvalg]; exact Bool.false_ne_true)]
  · intro q hq
    rw [decode_daikin_frame]
    by_cases h1 : q.head? = some '{' ∧ q.getLast? = some '}'
    · rw [if_pos h1]
      by_cases h2 : (stripBraces q).length < 30
      · rw [if_pos h2]
      · rw [if_neg h2, if_neg (by rw [hq]; exact Bool.false_ne_true)]
    · rw [if_neg h1]

unseal Rat.mul Rat.inv Rat.add in
/-- C4 counterexample: in the docstring example frame the data segment
has the hex letter `C` at stripped-frame position 45; replacing it by
its lower-case twin `c` is a single-character alteration of the data
segment that leaves the trailing checksum unchanged, yet decode still
returns the very same snapshot instead of no result. -/
theorem C4_counterexample :
    decode_daikin_frame examplePayload = some exampleSnapshot ∧
    byteCountOf (stripBraces examplePayload) = some 21 ∧
    (26 ≤ 45 ∧ 45 < 26 + 21 * 2) ∧
    (stripBraces examplePayload)[45]? = some 'C' ∧
    'c' ≠ 'C' ∧
    decode_daikin_frame
      ('{' :: ((stripBraces examplePayload).set 45 'c' ++ ['}'])) =
        some exampleSnapshot := by
  exact ⟨by decide, by decide, by decide, by decide, by decide, by decide⟩

unseal Rat.mul Rat.inv Rat.add in
/-- Witness for C4: altering position 45 of the example frame's data
segment to the non-hex character `x` makes decode yield no result, and a
frame failing the LRC check is rejected. -/
theorem C4_checksum_mismatch_rejection_witness :
    decode_daikin_frame
        ('{' :: ((stripBraces examplePayload).set 45 'x' ++ ['}'])) = none ∧
    decode_daikin_frame "{0}".toList = none := by
  have h := C4_checksum_mismatch_rejection examplePayload exampleSnapshot
    21 45 'x' 'C' (by decide) (by decide) (by decide) (by decide)
    (by decide) (by decide)
  exact ⟨h.1, h.2 "{0}".toList (by decide)⟩
